import Mathlib

/-!
Verification development for `emldump.py` (Didier Stevens Suite).

The functions below are shallow embeddings of the Python source:
byte strings become `List Nat` (one `Nat` per byte), Python `str`
arguments become `List Char`, and code that can raise an exception
returns `Except Unit`.  Definitions named like the source
(`ParseCutTerm`, `ParseCutArgument`, `CutData`, `IsNumeric`,
`LoadDecoders`, `cIdentity`) are direct translations of the
corresponding Python functions; definitions with a `spec` prefix
re-state what the natural-language specification claims, so that
the two can be compared by theorems.
-/

/-- Byte code of the single-quote character, used by the quoted-needle
regular expression of the source. -/
def quoteChar : Char := Char.ofNat 39

/-- Byte code of the newline character; the `.` of a Python regular
expression matches every character except this one. -/
def newlineChar : Char := Char.ofNat 10

/-- `[0-9]` of the source's regular expressions. -/
def isDigitChar (c : Char) : Bool := decide (48 ≤ c.toNat ∧ c.toNat ≤ 57)

/-- `[0-9a-f]` with `re.I` (so also `A-F`) of the source's regular
expressions. -/
def isHexDigitChar (c : Char) : Bool :=
  decide ((48 ≤ c.toNat ∧ c.toNat ≤ 57) ∨ (97 ≤ c.toNat ∧ c.toNat ≤ 102) ∨
    (65 ≤ c.toNat ∧ c.toNat ≤ 70))

/-- The characters removed by Python's `str.strip()`. -/
def isPySpace (c : Char) : Bool :=
  decide (c.toNat = 32 ∨ c.toNat = 9 ∨ c.toNat = 10 ∨ c.toNat = 13 ∨
    c.toNat = 11 ∨ c.toNat = 12)

/-- Python's `str.strip()`: remove leading and trailing whitespace. -/
def pyStrip (l : List Char) : List Char :=
  ((l.dropWhile isPySpace).reverse.dropWhile isPySpace).reverse

/-- Value of one hexadecimal digit, as `int(-, 16)` computes it. -/
def hexDigitVal (c : Char) : Nat :=
  if 48 ≤ c.toNat ∧ c.toNat ≤ 57 then c.toNat - 48
  else if 97 ≤ c.toNat then c.toNat - 87
  else c.toNat - 55

/-- `int(s, 16)` on a non-empty string of hexadecimal digits. -/
def hexVal (l : List Char) : Nat := l.foldl (fun a c => 16 * a + hexDigitVal c) 0

/-- `int(s)` on a non-empty string of decimal digits. -/
def decVal (l : List Char) : Nat := l.foldl (fun a c => 10 * a + (c.toNat - 48)) 0

/-- `binascii.a2b_hex` on a string of hexadecimal digits of even length:
each pair of digits becomes one byte. -/
def a2b_hex : List Char → List Nat
  | c1 :: c2 :: rest => (16 * hexDigitVal c1 + hexDigitVal c2) :: a2b_hex rest
  | _ => []

/-- Whether the first list is a prefix of the second (on bytes). -/
def isPrefixList : List Nat → List Nat → Bool
  | [], _ => true
  | _ :: _, [] => false
  | a :: as, b :: bs => a == b && isPrefixList as bs

/-- Python's `str.find`: 0-based offset of the first occurrence of
`needle` in the scanned list, `none` when absent (the source's `-1`). -/
def listFind (needle : List Nat) : List Nat → Option Nat
  | [] => if isPrefixList needle [] then some 0 else none
  | b :: rest =>
    if isPrefixList needle (b :: rest) then some 0
    else (listFind needle rest).map (fun j => j + 1)

/-- A parsed cut term as `ParseCutTerm` can produce it:
`CUTTERM_NOTHING`, `CUTTERM_POSITION` or `CUTTERM_FIND` of the source. -/
inductive CutTerm where
  | nothing
  | position (p : Nat)
  | find (needle : List Nat)
  deriving DecidableEq

/-- A parsed right-hand term as `ParseCutArgument` can produce it:
the left-term forms plus `CUTTERM_LENGTH`. -/
inductive RTerm where
  | nothing
  | position (p : Nat)
  | find (needle : List Nat)
  | length (n : Nat)
  deriving DecidableEq

/-- `re.match(r'0x([0-9a-f]+)', argument, re.I)` followed by
`int(group, 16)`: a hexadecimal position at the start of the text,
returning its value and the unconsumed remainder. -/
def matchHexPrefix (l : List Char) : Option (Nat × List Char) :=
  match l with
  | c0 :: c1 :: rest =>
    if c0 = '0' ∧ (c1 = 'x' ∨ c1 = 'X') then
      if rest.takeWhile isHexDigitChar = [] then none
      else some (hexVal (rest.takeWhile isHexDigitChar), rest.dropWhile isHexDigitChar)
    else none
  | _ => none

/-- `re.match(r'(\d+)', argument)` followed by `int(group)`: a decimal
position at the start of the text. -/
def matchDecimal (l : List Char) : Option (Nat × List Char) :=
  if l.takeWhile isDigitChar = [] then none
  else some (decVal (l.takeWhile isDigitChar), l.dropWhile isDigitChar)

/-- `re.match(r'\[([0-9a-f]+)\]', argument, re.I)`: a bracketed run of
hexadecimal digits; returns the digits and the remainder after `]`.
The run is greedy and hexadecimal digits cannot match `]`, so the
regular expression matches exactly when the maximal digit run is
non-empty and immediately followed by `]`. -/
def matchBracketHex (l : List Char) : Option (List Char × List Char) :=
  match l with
  | c :: rest =>
    if c = '[' then
      match rest.dropWhile isHexDigitChar with
      | d :: rem =>
        if d = ']' ∧ rest.takeWhile isHexDigitChar ≠ [] then
          some (rest.takeWhile isHexDigitChar, rem)
        else none
      | [] => none
    else none
  | [] => none

/-- Backtracking search of `re.match(r"\[\'(.+)\'\]", argument)` after
the opening `['` has been consumed: the greedy `.+` prefers to extend
the captured group (first alternative, refused across a newline since
`.` does not match newline), and only when no longer match exists does
it accept a closing `']` here (second alternative, requiring a
non-empty group).  Returns the captured group and the remainder. -/
def quoteScan : List Char → List Char → Option (List Char × List Char)
  | _, [] => none
  | acc, c :: rest =>
    match (if c = newlineChar then none else quoteScan (c :: acc) rest) with
    | some r => some r
    | none =>
      if c = quoteChar then
        match rest with
        | d :: rem => if d = ']' ∧ acc ≠ [] then some (acc.reverse, rem) else none
        | [] => none
      else none

/-- `re.match(r"\[\'(.+)\'\]", argument)`: a bracketed single-quoted
literal needle. -/
def matchQuoted (l : List Char) : Option (List Char × List Char) :=
  match l with
  | c1 :: c2 :: rest =>
    if c1 = '[' ∧ c2 = quoteChar then quoteScan [] rest else none
  | _ => none

/-- `ParseCutTerm` of the source: tries, in order, the empty string,
a hexadecimal position, a decimal position, a bracketed hexadecimal
needle (raising — `Except.error ()` — when the digit count is odd,
the source's bare `raise`), and a bracketed quoted needle; otherwise
the term is invalid (`none`) and the text is left unconsumed. -/
def ParseCutTerm (argument : List Char) : Except Unit (Option CutTerm × List Char) :=
  if argument = [] then Except.ok (some CutTerm.nothing, [])
  else
    match matchHexPrefix argument with
    | some (v, rem) => Except.ok (some (CutTerm.position v), rem)
    | none =>
      match matchDecimal argument with
      | some (v, rem) => Except.ok (some (CutTerm.position v), rem)
      | none =>
        match matchBracketHex argument with
        | some (ds, rem) =>
          if ds.length % 2 = 1 then Except.error ()
          else Except.ok (some (CutTerm.find (a2b_hex ds)), rem)
        | none =>
          match matchQuoted argument with
          | some (g, rem) => Except.ok (some (CutTerm.find (g.map Char.toNat)), rem)
          | none => Except.ok (none, argument)

/-- Second half of `ParseCutArgument`: parse the right-hand term from
the text after the colon.  A position followed by exactly `l` becomes
`CUTTERM_LENGTH`; an invalid term or leftover text invalidates the
whole expression. -/
def parseCutRight (typeLeft : CutTerm) (remainder : List Char) :
    Except Unit (Option (CutTerm × RTerm)) :=
  match ParseCutTerm remainder with
  | Except.error () => Except.error ()
  | Except.ok (some (CutTerm.position v), rem2) =>
    if rem2 = ['l'] then Except.ok (some (typeLeft, RTerm.length v))
    else if rem2 = [] then Except.ok (some (typeLeft, RTerm.position v))
    else Except.ok none
  | Except.ok (none, _) => Except.ok none
  | Except.ok (some CutTerm.nothing, rem2) =>
    if rem2 = [] then Except.ok (some (typeLeft, RTerm.nothing)) else Except.ok none
  | Except.ok (some (CutTerm.find n), rem2) =>
    if rem2 = [] then Except.ok (some (typeLeft, RTerm.find n)) else Except.ok none

/-- After the left term has been parsed: the source requires the
remainder to start with `:` and then parses the right term. -/
def afterLeft (typeLeft : CutTerm) (remainder : List Char) :
    Except Unit (Option (CutTerm × RTerm)) :=
  match remainder with
  | c :: rest => if c = ':' then parseCutRight typeLeft rest else Except.ok none
  | [] => Except.ok none

/-- `ParseCutArgument` of the source: strip the argument, parse the
left term, require the colon, parse the right term.  `Except.ok none`
is the source's `(None, None, None, None)` invalid marker;
`Except.ok (some (l, r))` is a valid parse. -/
def ParseCutArgument (argument : List Char) : Except Unit (Option (CutTerm × RTerm)) :=
  match ParseCutTerm (pyStrip argument) with
  | Except.error () => Except.error ()
  | Except.ok (some CutTerm.nothing, _) =>
    Except.ok (some (CutTerm.nothing, RTerm.nothing))
  | Except.ok (none, remainder) => afterLeft CutTerm.nothing remainder
  | Except.ok (some (CutTerm.position p), remainder) =>
    afterLeft (CutTerm.position p) remainder
  | Except.ok (some (CutTerm.find n), remainder) =>
    afterLeft (CutTerm.find n) remainder

/-- Resolution of `positionBegin` in `CutData`: `none` encodes the
source's early `return ''` when a left needle is absent. -/
def cutBegin (stream : List Nat) : CutTerm → Option Nat
  | CutTerm.nothing => some 0
  | CutTerm.position p => some p
  | CutTerm.find needle => listFind needle stream

/-- Resolution of `positionEnd` in `CutData`: `none` encodes the
source's early `return ''` when a right needle is absent. -/
def cutEnd (stream : List Nat) (positionBegin : Nat) : RTerm → Option Nat
  | RTerm.nothing => some stream.length
  | RTerm.position p => some (p + 1)
  | RTerm.length n => some (positionBegin + n)
  | RTerm.find needle => (listFind needle stream).map (fun j => j + needle.length)

/-- The slicing core of `CutData` once the expression parsed validly. -/
def cutCore (stream : List Nat) (typeLeft : CutTerm) (typeRight : RTerm) : List Nat :=
  match cutBegin stream typeLeft with
  | none => []
  | some positionBegin =>
    match cutEnd stream positionBegin typeRight with
    | none => []
    | some positionEnd => (stream.take positionEnd).drop positionBegin

/-- `CutData` of the source: empty argument returns the stream as is;
an invalid parse also returns the stream as is; a raising parse
propagates; otherwise slice `stream[positionBegin:positionEnd]`. -/
def CutData (stream : List Nat) (cutArgument : List Char) : Except Unit (List Nat) :=
  if cutArgument = [] then Except.ok stream
  else
    match ParseCutArgument cutArgument with
    | Except.error () => Except.error ()
    | Except.ok none => Except.ok stream
    | Except.ok (some (typeLeft, typeRight)) =>
      Except.ok (cutCore stream typeLeft typeRight)

/-- `IsNumeric` of the source: `re.match('^[0-9]+', str)` is truthy
exactly when the string starts with a decimal digit (the pattern is
not anchored at the end). -/
def IsNumeric : List Char → Bool
  | [] => false
  | c :: _ => isDigitChar c

/-- Python's `int()` on the sign-free strings the selection code can
feed it: surrounding whitespace is stripped, then the string must be a
non-empty run of decimal digits, otherwise `ValueError` is raised. -/
def pyInt (s : List Char) : Except Unit Nat :=
  if pyStrip s ≠ [] ∧ (pyStrip s).all isDigitChar then Except.ok (decVal (pyStrip s))
  else Except.error ()

/-- One MIME part as the selection loop of `EMLDump` sees it. -/
structure MimePart where
  contentType : List Char
  multipart : Bool
  payload : Option (List Nat)
  deriving DecidableEq

/-- The per-part selection condition of `EMLDump`:
`IsNumeric(select) and counter == int(select) or
 not IsNumeric(select) and oPart.get_content_type() == select`,
with `int` able to raise. -/
def selectMatch (select : List Char) (counter : Nat) (p : MimePart) : Except Unit Bool :=
  if IsNumeric select then
    match pyInt select with
    | Except.error () => Except.error ()
    | Except.ok n => Except.ok (decide (counter = n))
  else Except.ok (decide (p.contentType = select))

/-- The selection loop of `EMLDump`: walk the parts with a 1-based
counter and stop at the first part whose condition holds. -/
def selectPartAux (select : List Char) : Nat → List MimePart → Except Unit (Option (Nat × MimePart))
  | _, [] => Except.ok none
  | counter, p :: rest =>
    match selectMatch select counter p with
    | Except.error () => Except.error ()
    | Except.ok true => Except.ok (some (counter, p))
    | Except.ok false => selectPartAux select (counter + 1) rest

/-- MimePart selection as `EMLDump` performs it, starting the counter at 1. -/
def selectPart (select : List Char) (parts : List MimePart) : Except Unit (Option (Nat × MimePart)) :=
  selectPartAux select 1 parts

/-- Following the claim text of C4: the first part whose content type
equals the selection token, with its 1-based index. -/
def firstTypeMatch (select : List Char) : Nat → List MimePart → Option (Nat × MimePart)
  | _, [] => none
  | i, p :: rest =>
    if p.contentType = select then some (i, p) else firstTypeMatch select (i + 1) rest

/-- Following the claim text of C4: the part at the given 1-based index. -/
def nthSelect (n : Nat) : Nat → List MimePart → Option (Nat × MimePart)
  | _, [] => none
  | i, p :: rest => if i = n then some (i, p) else nthSelect n (i + 1) rest

/-- State of one `cIdentity` instance of the source: the constructor
stores the stream and options and sets `available` to `True`. -/
structure cIdentity where
  stream : List Nat
  options : Option (List Char)
  available : Bool
  deriving DecidableEq

/-- `cIdentity.__init__`. -/
def mkIdentity (stream : List Nat) (options : Option (List Char)) : cIdentity :=
  { stream := stream, options := options, available := true }

/-- `cIdentity.Available`. -/
def cIdentity.Available (s : cIdentity) : Bool := s.available

/-- `cIdentity.Decode`: returns the stored stream and flips
`available` to `False`. -/
def cIdentity.Decode (s : cIdentity) : List Nat × cIdentity :=
  (s.stream, { s with available := false })

/-- `cIdentity.Name`: the empty label. -/
def cIdentity.Name (_ : cIdentity) : List Char := []

/-- The scan loop `while oDecoder.Available(): ... oDecoder.Decode()`
driven on a `cIdentity` instance, collecting the produced buffers
(`fuel` bounds the iteration so the definition is total). -/
def driveIdentity : Nat → cIdentity → List (List Nat)
  | 0, _ => []
  | fuel + 1, s =>
    if s.Available then
      (s.Decode).1 :: driveIdentity fuel (s.Decode).2
    else []

/-- `LoadDecoders` of the source, with the file-system side of loading
one plugin abstracted into its outcome: `some d` is a plugin whose
file executed and registered decoder `d`, `none` is a plugin whose
load raised.  On a failure the source prints an error and, when
`verbose` is true, re-raises (aborting the whole load — the decoders
after the failing one are never attempted); when `verbose` is false it
continues with the remaining plugins.  Returns the registered decoders
and whether an exception propagated. -/
def LoadDecoders {α : Type} : List (Option α) → Bool → List α × Bool
  | [], _ => ([], false)
  | some d :: rest, verbose =>
    ((d :: (LoadDecoders rest verbose).1), (LoadDecoders rest verbose).2)
  | none :: rest, verbose =>
    if verbose then ([], true) else LoadDecoders rest verbose

/-- One entry of the per-part decoder list the scan loop drives:
the built-in identity instance, or one instantiated user plugin. -/
inductive ScanDecoder (α : Type) where
  | identity (s : cIdentity)
  | plugin (d : α)
  deriving DecidableEq

/-- Instantiation of every loaded decoder over the part's payload, as
the scan loop does it: `some d` is a successful instantiation, `none`
one that raised — which aborts the scan (the source re-raises in
verbose mode and `return`s otherwise; either way no scanning runs). -/
def instantiateDecoders {α : Type} : List (Option α) → Except Unit (List α)
  | [] => Except.ok []
  | none :: _ => Except.error ()
  | some d :: rest => (instantiateDecoders rest).map (fun ds => d :: ds)

/-- `oDecoders = [cIdentity(data, None)]` followed by appending every
instantiated user decoder: the decoder list the scan loop drives for
one part. -/
def buildDecoders {α : Type} (data : List Nat) (insts : List (Option α)) :
    Except Unit (List (ScanDecoder α)) :=
  match instantiateDecoders insts with
  | Except.error () => Except.error ()
  | Except.ok ds =>
    Except.ok (ScanDecoder.identity (mkIdentity data none) :: ds.map ScanDecoder.plugin)

/-- Following the claim text of C5: resolution of the left bound `lo`:
nothing gives 0, a position gives itself unclamped, a needle gives the
offset of its first occurrence or makes the overall result empty. -/
def specLo (B : List Nat) : CutTerm → Option Nat
  | CutTerm.nothing => some 0
  | CutTerm.position p => some p
  | CutTerm.find X => listFind X B

/-- Following the claim text of C5: resolution of the right bound `hi`:
nothing gives the length of the buffer, a position `p` gives `p + 1`,
a length `L` gives `lo + L`, a needle gives the offset of its first
occurrence plus its length or makes the overall result empty. -/
def specHi (B : List Nat) (lo : Nat) : RTerm → Option Nat
  | RTerm.nothing => some B.length
  | RTerm.position p => some (p + 1)
  | RTerm.length L => some (lo + L)
  | RTerm.find Y => (listFind Y B).map (fun j => j + Y.length)

/-- Following the claim text of C5: the cut returns `B[lo:hi]`, or the
empty buffer when either needle is absent. -/
def applySpec (B : List Nat) (tl : CutTerm) (tr : RTerm) : List Nat :=
  match specLo B tl with
  | none => []
  | some lo =>
    match specHi B lo tr with
    | none => []
    | some hi => (B.take hi).drop lo


theorem dropWhile_eq_self_of_all {p : Char → Bool} :
    ∀ l : List Char, (∀ c ∈ l, p c = false) → l.dropWhile p = l
  | [], _ => rfl
  | c :: rest, h => by
    simp [List.dropWhile_cons, h c (by simp), dropWhile_eq_self_of_all rest
      (fun d hd => h d (by simp [hd]))]

theorem pyStrip_eq_self {l : List Char} (h : ∀ c ∈ l, isPySpace c = false) :
    pyStrip l = l := by
  unfold pyStrip
  rw [dropWhile_eq_self_of_all l h, dropWhile_eq_self_of_all l.reverse
    (fun c hc => h c (List.mem_reverse.mp hc)), List.reverse_reverse]

theorem takeWhile_append_cons {p : Char → Bool} :
    ∀ (xs : List Char) (y : Char) (ys : List Char), (∀ c ∈ xs, p c = true) →
      p y = false → (xs ++ y :: ys).takeWhile p = xs
  | [], y, ys, _, hy => by simp [List.takeWhile_cons, hy]
  | x :: xs, y, ys, h, hy => by
    simp only [List.cons_append, List.takeWhile_cons, h x (by simp)]
    simp [takeWhile_append_cons xs y ys (fun c hc => h c (by simp [hc])) hy]

theorem dropWhile_append_cons {p : Char → Bool} :
    ∀ (xs : List Char) (y : Char) (ys : List Char), (∀ c ∈ xs, p c = true) →
      p y = false → (xs ++ y :: ys).dropWhile p = y :: ys
  | [], y, ys, _, hy => by simp [List.dropWhile_cons, hy]
  | x :: xs, y, ys, h, hy => by
    simp only [List.cons_append, List.dropWhile_cons, h x (by simp)]
    simp [dropWhile_append_cons xs y ys (fun c hc => h c (by simp [hc])) hy]

theorem digit_not_space {c : Char} (h : isDigitChar c = true) : isPySpace c = false := by
  simp only [isDigitChar, decide_eq_true_eq] at h
  simp only [isPySpace, decide_eq_false_iff_not]
  omega

theorem hex_not_space {c : Char} (h : isHexDigitChar c = true) : isPySpace c = false := by
  simp only [isHexDigitChar, decide_eq_true_eq] at h
  simp only [isPySpace, decide_eq_false_iff_not]
  omega

theorem digit_ne_x {c : Char} (h : isDigitChar c = true) : c ≠ 'x' := by
  rintro rfl; exact absurd h (by decide)

theorem digit_ne_X {c : Char} (h : isDigitChar c = true) : c ≠ 'X' := by
  rintro rfl; exact absurd h (by decide)

theorem matchHexPrefix_none_of_ne {c0 c1 : Char} {rest : List Char}
    (h1 : c1 ≠ 'x') (h2 : c1 ≠ 'X') : matchHexPrefix (c0 :: c1 :: rest) = none := by
  simp [matchHexPrefix, h1, h2]

theorem cutCore_eq_applySpec (B : List Nat) (tl : CutTerm) (tr : RTerm) :
    cutCore B tl tr = applySpec B tl tr := by
  cases tl <;> cases tr <;> rfl

theorem cutData_parsed (B : List Nat) (text : List Char) (tl : CutTerm) (tr : RTerm)
    (h : ParseCutArgument text = Except.ok (some (tl, tr))) :
    CutData B text = Except.ok (applySpec B tl tr) := by
  by_cases ht : text = []
  · subst ht
    have h0 : ParseCutArgument ([] : List Char) =
        Except.ok (some (CutTerm.nothing, RTerm.nothing)) := rfl
    rw [h0] at h
    simp only [Except.ok.injEq, Option.some.injEq, Prod.mk.injEq] at h
    obtain ⟨h1, h2⟩ := h
    rw [← h1, ← h2]
    show Except.ok B = _
    simp [applySpec, specLo, specHi]
  · unfold CutData
    rw [if_neg ht, h]
    show Except.ok (cutCore B tl tr) = _
    rw [cutCore_eq_applySpec]

theorem parseCutTerm_error_iff (arg : List Char) :
    ParseCutTerm arg = Except.error () ↔
      matchHexPrefix arg = none ∧ matchDecimal arg = none ∧
      ∃ ds rem, matchBracketHex arg = some (ds, rem) ∧ ds.length % 2 = 1 := by
  by_cases h0 : arg = []
  · subst h0
    simp [ParseCutTerm, matchHexPrefix, matchDecimal, matchBracketHex]
  · unfold ParseCutTerm
    rw [if_neg h0]
    cases hh : matchHexPrefix arg with
    | some p => obtain ⟨v, rem⟩ := p; simp
    | none =>
      cases hd : matchDecimal arg with
      | some p => obtain ⟨v, rem⟩ := p; simp
      | none =>
        cases hb : matchBracketHex arg with
        | some p =>
          obtain ⟨ds, rem⟩ := p
          by_cases hm : ds.length % 2 = 1
          · simp [hm]
          · simp [hm]
        | none =>
          cases hq : matchQuoted arg with
          | some p => obtain ⟨g, rem⟩ := p; simp
          | none => simp

theorem parseCutRight_error_iff (tl : CutTerm) (rest : List Char) :
    parseCutRight tl rest = Except.error () ↔ ParseCutTerm rest = Except.error () := by
  unfold parseCutRight
  cases h : ParseCutTerm rest with
  | error e => cases e; simp
  | ok pr =>
    obtain ⟨t, rem2⟩ := pr
    constructor
    · intro hL
      exfalso
      cases t with
      | none => exact Except.noConfusion hL
      | some tt =>
        cases tt with
        | nothing =>
          by_cases h2 : rem2 = [] <;> simp [h2] at hL
        | position v =>
          by_cases h2 : rem2 = ['l']
          · simp [h2] at hL
          · by_cases h3 : rem2 = [] <;> simp [h2, h3] at hL
        | find n =>
          by_cases h2 : rem2 = [] <;> simp [h2] at hL
    · intro hR
      exact absurd hR (fun h2 => Except.noConfusion h2)

theorem afterLeft_error_iff (tl : CutTerm) (remainder : List Char) :
    afterLeft tl remainder = Except.error () ↔
      ∃ rest, remainder = ':' :: rest ∧ ParseCutTerm rest = Except.error () := by
  cases remainder with
  | nil => simp [afterLeft]
  | cons c rest =>
    by_cases hc : c = ':'
    · subst hc
      simp [afterLeft, parseCutRight_error_iff]
    · simp [afterLeft, hc]

/-- C1: the claim says `ParseCutArgument`/`ParseCutTerm` never raise and
that a bracketed hexadecimal needle with an odd number of hex digits
(such as `[abc]:`) yields the Invalid marker.  The code raises there:
this theorem shows the parse of `[abc]:` is `Except.error ()`, not the
Invalid marker `Except.ok none`. -/
theorem claim_C1_counterexample :
    ParseCutArgument ("[abc]:".toList) = Except.error () ∧
    ParseCutArgument ("[abc]:".toList) ≠ Except.ok none := by
  constructor
  · rfl
  · intro h
    have h2 : (Except.error () : Except Unit (Option (CutTerm × RTerm))) =
        Except.ok none :=
      Eq.trans (show Except.error () = ParseCutArgument ("[abc]:".toList) from rfl) h
    exact Except.noConfusion h2

/-- C1 (amended): `ParseCutTerm` raises exactly when its argument is
matched by the bracketed-hexadecimal-needle regular expression with an
odd number of hex digits (and not by the position regular expressions),
and `ParseCutArgument` raises exactly when one of its two term
positions raises; every other malformed expression yields the Invalid
marker rather than an error. -/
theorem claim_C1 :
    (∀ arg : List Char, ParseCutTerm arg = Except.error () ↔
        matchHexPrefix arg = none ∧ matchDecimal arg = none ∧
        ∃ ds rem, matchBracketHex arg = some (ds, rem) ∧ ds.length % 2 = 1) ∧
    (∀ arg : List Char, ParseCutArgument arg = Except.error () ↔
        (ParseCutTerm (pyStrip arg) = Except.error () ∨
         ∃ t rem, ParseCutTerm (pyStrip arg) = Except.ok (t, ':' :: rem) ∧
           t ≠ some CutTerm.nothing ∧ ParseCutTerm rem = Except.error ())) := by
  constructor
  · exact parseCutTerm_error_iff
  · intro arg
    unfold ParseCutArgument
    cases h1 : ParseCutTerm (pyStrip arg) with
    | error e => cases e; simp
    | ok pr =>
      obtain ⟨t, rem⟩ := pr
      cases t with
      | none =>
        show afterLeft CutTerm.nothing rem = Except.error () ↔ _
        rw [afterLeft_error_iff]
        constructor
        · rintro ⟨rest, hrem, herr⟩
          exact Or.inr ⟨none, rest, by rw [hrem], by simp, herr⟩
        · rintro (hbad | ⟨t, rest, heq, hne, herr⟩)
          · exact absurd hbad (fun h2 => Except.noConfusion h2)
          · injection heq with h'
            injection h' with hh1 hh2
            exact ⟨rest, hh2, herr⟩
      | some tt =>
        cases tt with
        | nothing =>
          constructor
          · intro hL
            exact absurd hL (fun h2 => Except.noConfusion h2)
          · rintro (hbad | ⟨t, rest, heq, hne, herr⟩)
            · exact absurd hbad (fun h2 => Except.noConfusion h2)
            · injection heq with h'
              injection h' with hh1 hh2
              exact absurd hh1.symm hne
        | position p =>
          show afterLeft (CutTerm.position p) rem = Except.error () ↔ _
          rw [afterLeft_error_iff]
          constructor
          · rintro ⟨rest, hrem, herr⟩
            exact Or.inr ⟨some (CutTerm.position p), rest, by rw [hrem], by simp, herr⟩
          · rintro (hbad | ⟨t, rest, heq, hne, herr⟩)
            · exact absurd hbad (fun h2 => Except.noConfusion h2)
            · injection heq with h'
              injection h' with hh1 hh2
              exact ⟨rest, hh2, herr⟩
        | find n =>
          show afterLeft (CutTerm.find n) rem = Except.error () ↔ _
          rw [afterLeft_error_iff]
          constructor
          · rintro ⟨rest, hrem, herr⟩
            exact Or.inr ⟨some (CutTerm.find n), rest, by rw [hrem], by simp, herr⟩
          · rintro (hbad | ⟨t, rest, heq, hne, herr⟩)
            · exact absurd hbad (fun h2 => Except.noConfusion h2)
            · injection heq with h'
              injection h' with hh1 hh2
              exact ⟨rest, hh2, herr⟩

theorem parse_decimal_colon (ds : List Char) (h1 : ds ≠ [])
    (h2 : ∀ c ∈ ds, isDigitChar c = true) :
    ParseCutArgument (ds ++ [':']) =
      Except.ok (some (CutTerm.position (decVal ds), RTerm.nothing)) := by
  have hsp : pyStrip (ds ++ [':']) = ds ++ [':'] := by
    apply pyStrip_eq_self
    intro c hc
    rcases List.mem_append.mp hc with hm | hm
    · exact digit_not_space (h2 c hm)
    · simp only [List.mem_singleton] at hm
      subst hm
      decide
  have htw : (ds ++ [':']).takeWhile isDigitChar = ds :=
    takeWhile_append_cons ds ':' [] h2 (by decide)
  have hdw : (ds ++ [':']).dropWhile isDigitChar = [':'] :=
    dropWhile_append_cons ds ':' [] h2 (by decide)
  have hdec : matchDecimal (ds ++ [':']) = some (decVal ds, [':']) := by
    rw [matchDecimal, htw, hdw, if_neg h1]
  have hhex : matchHexPrefix (ds ++ [':']) = none := by
    cases ds with
    | nil => exact absurd rfl h1
    | cons d tail =>
      cases tail with
      | nil => exact matchHexPrefix_none_of_ne (by decide) (by decide)
      | cons t ts =>
        exact matchHexPrefix_none_of_ne (digit_ne_x (h2 t (by simp)))
          (digit_ne_X (h2 t (by simp)))
  have hterm : ParseCutTerm (ds ++ [':']) =
      Except.ok (some (CutTerm.position (decVal ds)), [':']) := by
    unfold ParseCutTerm
    rw [if_neg (by simp), hhex, hdec]
  unfold ParseCutArgument
  rw [hsp, hterm]
  rfl

theorem parse_hex_colon (hs : List Char) (h1 : hs ≠ [])
    (h2 : ∀ c ∈ hs, isHexDigitChar c = true) :
    ParseCutArgument ('0' :: 'x' :: hs ++ [':']) =
      Except.ok (some (CutTerm.position (hexVal hs), RTerm.nothing)) := by
  have hsp : pyStrip ('0' :: 'x' :: hs ++ [':']) = '0' :: 'x' :: hs ++ [':'] := by
    apply pyStrip_eq_self
    intro c hc
    rcases List.mem_cons.mp hc with hm | hc2
    · subst hm; decide
    · rcases List.mem_cons.mp hc2 with hm | hc3
      · subst hm; decide
      · rcases List.mem_append.mp hc3 with hm2 | hm2
        · exact hex_not_space (h2 c hm2)
        · have h3 : c = ':' := List.mem_singleton.mp hm2
          subst h3
          decide
  have htw : (hs ++ [':']).takeWhile isHexDigitChar = hs :=
    takeWhile_append_cons hs ':' [] h2 (by decide)
  have hdw : (hs ++ [':']).dropWhile isHexDigitChar = [':'] :=
    dropWhile_append_cons hs ':' [] h2 (by decide)
  have hhex : matchHexPrefix ('0' :: 'x' :: hs ++ [':']) = some (hexVal hs, [':']) := by
    show (if '0' = '0' ∧ ('x' = 'x' ∨ 'x' = 'X') then
        if (hs ++ [':']).takeWhile isHexDigitChar = [] then none
        else some (hexVal ((hs ++ [':']).takeWhile isHexDigitChar),
          (hs ++ [':']).dropWhile isHexDigitChar)
      else none) = _
    rw [if_pos ⟨rfl, Or.inl rfl⟩, htw, hdw, if_neg h1]
  have hterm : ParseCutTerm ('0' :: 'x' :: hs ++ [':']) =
      Except.ok (some (CutTerm.position (hexVal hs)), [':']) := by
    unfold ParseCutTerm
    rw [if_neg (by simp), hhex]
  unfold ParseCutArgument
  rw [hsp, hterm]
  rfl

/-- C5: for every buffer and every validly parsed cut expression,
`CutData` returns `B[lo:hi]` with the bounds resolved exactly as the
specification describes (`applySpec`/`specLo`/`specHi`), and in
particular `Parse("p:")` followed by `Apply` returns `B[p:]` for every
valid decimal or hexadecimal position text `p`. -/
theorem claim_C5 :
    (∀ (B : List Nat) (text : List Char) (tl : CutTerm) (tr : RTerm),
        ParseCutArgument text = Except.ok (some (tl, tr)) →
        CutData B text = Except.ok (applySpec B tl tr)) ∧
    (∀ (B : List Nat) (ds : List Char), ds ≠ [] →
        (∀ c ∈ ds, isDigitChar c = true) →
        CutData B (ds ++ [':']) = Except.ok (B.drop (decVal ds))) ∧
    (∀ (B : List Nat) (hs : List Char), hs ≠ [] →
        (∀ c ∈ hs, isHexDigitChar c = true) →
        CutData B ('0' :: 'x' :: hs ++ [':']) = Except.ok (B.drop (hexVal hs))) := by
  refine ⟨cutData_parsed, ?_, ?_⟩
  · intro B ds h1 h2
    rw [cutData_parsed B (ds ++ [':']) _ _ (parse_decimal_colon ds h1 h2)]
    simp [applySpec, specLo, specHi]
  · intro B hs h1 h2
    rw [cutData_parsed B ('0' :: 'x' :: hs ++ [':']) _ _ (parse_hex_colon hs h1 h2)]
    simp [applySpec, specLo, specHi]

/-- Witness for C5 at concrete inputs: the buffer `[9, 8, 7]` cut with
`2:` and with `0x2:` both give the suffix from offset 2, and the cut
`['MZ']:0x100l` (left needle, right length) behaves as specified on a
buffer containing `MZ`. -/
theorem claim_C5_witness :
    CutData [9, 8, 7] ("2:".toList) = Except.ok [7] ∧
    CutData [9, 8, 7] ("0x2:".toList) = Except.ok [7] ∧
    CutData [0, 77, 90, 5, 6] ("['MZ']:3l".toList) = Except.ok [77, 90, 5] := by
  refine ⟨?_, ?_, ?_⟩
  · exact claim_C5.2.1 [9, 8, 7] ['2'] (by decide) (by decide)
  · exact claim_C5.2.2 [9, 8, 7] ['2'] (by decide) (by decide)
  · exact claim_C5.1 [0, 77, 90, 5, 6] ("['MZ']:3l".toList) (CutTerm.find [77, 90])
      (RTerm.length 3) rfl

/-- C6: the right-hand needle of a cut is searched from the start of
the buffer, not from the resolved left bound, so the computed end can
lie before the start: concretely, on the buffer `abcab` the cut
`3:[6162]` (`ab` in hex) finds its end at offset 0 + 2 = 2 < 3 and the
result collapses to the empty buffer. -/
theorem claim_C6 :
    (∀ (B : List Nat) (text : List Char) (lo : Nat) (Y : List Nat),
        ParseCutArgument text = Except.ok (some (CutTerm.position lo, RTerm.find Y)) →
        CutData B text = Except.ok (match listFind Y B with
          | none => []
          | some j => (B.take (j + Y.length)).drop lo)) ∧
    (listFind [97, 98] [97, 98, 99, 97, 98] = some 0 ∧ 0 + 2 < 3 ∧
     CutData [97, 98, 99, 97, 98] ("3:[6162]".toList) = Except.ok []) := by
  constructor
  · intro B text lo Y h
    rw [cutData_parsed B text _ _ h]
    cases hf : listFind Y B <;> simp [applySpec, specLo, specHi, hf]
  · exact ⟨rfl, by decide, rfl⟩

/-- Witness for C6: its universally quantified part applied at the
buffer `abcab` and the cut text `3:[6162]`, whose right needle occurs
at offset 0, before the left bound 3. -/
theorem claim_C6_witness :
    CutData [97, 98, 99, 97, 98] ("3:[6162]".toList) =
      Except.ok (match listFind [97, 98] [97, 98, 99, 97, 98] with
        | none => []
        | some j => (([97, 98, 99, 97, 98] : List Nat).take (j + 2)).drop 3) :=
  claim_C6.1 [97, 98, 99, 97, 98] ("3:[6162]".toList) 3 [97, 98] rfl

/-- C7: the empty cut text selects the whole buffer, and so does the
cut text `:` with both terms empty. -/
theorem claim_C7 (B : List Nat) :
    CutData B [] = Except.ok B ∧ CutData B [':'] = Except.ok B := by
  constructor
  · rfl
  · rw [cutData_parsed B [':'] CutTerm.nothing RTerm.nothing rfl]
    simp [applySpec, specLo, specHi]

/-- C10: a non-empty cut text whose parse yields the Invalid marker
makes `CutData` return the stream unchanged — Invalid silently behaves
as "no cut applied" at this interface. -/
theorem claim_C10 (B : List Nat) (text : List Char) (hne : text ≠ [])
    (h : ParseCutArgument text = Except.ok none) : CutData B text = Except.ok B := by
  unfold CutData
  rw [if_neg hne, h]

/-- Witness for C10: the malformed cut text `xyz` parses to Invalid and
`CutData` passes the buffer through unchanged. -/
theorem claim_C10_witness : CutData [1, 2, 3] ("xyz".toList) = Except.ok [1, 2, 3] :=
  claim_C10 [1, 2, 3] ("xyz".toList) (by decide) rfl

theorem selectPartAux_type (select : List Char) (hnum : IsNumeric select = false) :
    ∀ (i : Nat) (parts : List MimePart),
      selectPartAux select i parts = Except.ok (firstTypeMatch select i parts)
  | _, [] => rfl
  | i, p :: rest => by
    unfold selectPartAux firstTypeMatch
    rw [show selectMatch select i p = Except.ok (decide (p.contentType = select)) by
      unfold selectMatch; rw [if_neg (by simp [hnum])]]
    by_cases hc : p.contentType = select
    · rw [decide_eq_true hc, if_pos hc]
    · rw [decide_eq_false hc, if_neg hc]
      exact selectPartAux_type select hnum (i + 1) rest

theorem selectPartAux_index (select : List Char) (n : Nat)
    (hnum : IsNumeric select = true) (hint : pyInt select = Except.ok n) :
    ∀ (i : Nat) (parts : List MimePart),
      selectPartAux select i parts = Except.ok (nthSelect n i parts)
  | _, [] => rfl
  | i, p :: rest => by
    unfold selectPartAux nthSelect
    rw [show selectMatch select i p = Except.ok (decide (i = n)) by
      unfold selectMatch; rw [if_pos (by simp [hnum]), hint]]
    by_cases hc : i = n
    · rw [decide_eq_true hc, if_pos hc]
    · rw [decide_eq_false hc, if_neg hc]
      exact selectPartAux_index select n hnum hint (i + 1) rest

/-- C4: the claim says a token that is not all-decimal is compared as a
content-type string, so the token `2x` should select the first part
whose content type is `2x` (the second conjunct computes that expected
answer); the code instead treats any digit-initial token as numeric and
`int('2x')` raises, so the selection errors out. -/
theorem claim_C4_counterexample :
    selectPart ("2x".toList) [⟨"2x".toList, false, some []⟩] = Except.error () ∧
    firstTypeMatch ("2x".toList) 1 [⟨"2x".toList, false, some []⟩] =
      some (1, ⟨"2x".toList, false, some []⟩) := ⟨rfl, rfl⟩

/-- C4 (amended): the selection token is treated as a 1-based part
index exactly when it starts with a decimal digit (`IsNumeric` matches
only the start of the token); a digit-initial token that is not a
valid integer literal makes the selection raise; any token not
starting with a digit is compared as a literal content-type string and
the first matching part is taken. -/
theorem claim_C4 (select : List Char) (parts : List MimePart) :
    (IsNumeric select = false →
        selectPart select parts = Except.ok (firstTypeMatch select 1 parts)) ∧
    (IsNumeric select = true → ∀ n, pyInt select = Except.ok n →
        selectPart select parts = Except.ok (nthSelect n 1 parts)) ∧
    (IsNumeric select = true → pyInt select = Except.error () → parts ≠ [] →
        selectPart select parts = Except.error ()) := by
  refine ⟨?_, ?_, ?_⟩
  · intro hnum
    exact selectPartAux_type select hnum 1 parts
  · intro hnum n hint
    exact selectPartAux_index select n hnum hint 1 parts
  · intro hnum herr hne
    cases parts with
    | nil => exact absurd rfl hne
    | cons p rest =>
      show (match selectMatch select 1 p with
        | Except.error () => Except.error ()
        | Except.ok true => Except.ok (some (1, p))
        | Except.ok false => selectPartAux select 2 rest) = Except.error ()
      rw [show selectMatch select 1 p = Except.error () by
        unfold selectMatch; rw [if_pos (by simp [hnum]), herr]]

/-- Witness for C4 at concrete inputs: the token `text/plain` (not
digit-initial) selects the first part of that content type, the token
`2` selects the second part, and the digit-initial junk token `2x`
makes the selection raise. -/
theorem claim_C4_witness :
    selectPart ("text/plain".toList)
      [⟨"application/octet-stream".toList, false, some [77]⟩,
       ⟨"text/plain".toList, false, some [10]⟩] =
      Except.ok (some (2, ⟨"text/plain".toList, false, some [10]⟩)) ∧
    selectPart ("2".toList)
      [⟨"application/octet-stream".toList, false, some [77]⟩,
       ⟨"text/plain".toList, false, some [10]⟩] =
      Except.ok (some (2, ⟨"text/plain".toList, false, some [10]⟩)) ∧
    selectPart ("2x".toList)
      [⟨"application/octet-stream".toList, false, some [77]⟩,
       ⟨"text/plain".toList, false, some [10]⟩] = Except.error () := by
  refine ⟨?_, ?_, ?_⟩
  · exact (claim_C4 ("text/plain".toList) _).1 rfl
  · exact (claim_C4 ("2".toList) _).2.1 rfl 2 rfl
  · exact (claim_C4 ("2x".toList) _).2.2 rfl rfl (by simp)

/-- C8: a fresh identity decoder instance is available, its single
`Decode` returns the original stream and flips availability off, its
`Name` is the empty label, availability never comes back (`Decode`
always leaves it false), and the scan loop drives it to exactly one
output equal to the input, for any loop bound of at least one step. -/
theorem claim_C8 (stream : List Nat) (options : Option (List Char)) :
    (mkIdentity stream options).Available = true ∧
    ((mkIdentity stream options).Decode).1 = stream ∧
    ((mkIdentity stream options).Decode).2.Available = false ∧
    (mkIdentity stream options).Name = [] ∧
    (∀ s : cIdentity, s.Available = false → (s.Decode).2.Available = false) ∧
    (∀ fuel, 1 ≤ fuel → driveIdentity fuel (mkIdentity stream options) = [stream]) := by
  refine ⟨rfl, rfl, rfl, rfl, fun s _ => rfl, ?_⟩
  intro fuel hf
  cases fuel with
  | zero => exact absurd hf (by decide)
  | succ k =>
    have hstep : driveIdentity (k + 1) (mkIdentity stream options) =
        stream :: driveIdentity k ⟨stream, options, false⟩ := rfl
    rw [hstep]
    cases k with
    | zero => rfl
    | succ m => rfl

/-- Witness for C8: the identity decoder over the buffer `[7]` yields
exactly `[[7]]` under the scan loop, and a decoded (exhausted)
instance stays unavailable. -/
theorem claim_C8_witness :
    driveIdentity 5 (mkIdentity [7] none) = [[7]] ∧
    ((mkIdentity [7] none).Decode).2.Available = false ∧
    (cIdentity.Decode ⟨[7], none, false⟩).2.Available = false :=
  ⟨(claim_C8 [7] none).2.2.2.2.2 5 (by decide), (claim_C8 [7] none).2.2.1,
   (claim_C8 [7] none).2.2.2.2.1 ⟨[7], none, false⟩ rfl⟩

/-- C9: whenever the per-part decoder list is successfully assembled,
its first entry is the built-in identity instance over the part's
payload (constructed with `None` options, exactly as the source's
`oDecoders = [cIdentity(data, None)]`), every later entry is a
user-supplied plugin, an identity entry is never equal to a plugin
entry, and with zero plugins the list is exactly the identity alone. -/
theorem claim_C9 {α : Type} (data : List Nat) (insts : List (Option α))
    (ds : List (ScanDecoder α)) (h : buildDecoders data insts = Except.ok ds) :
    ds.head? = some (ScanDecoder.identity (mkIdentity data none)) ∧
    (∀ x ∈ ds.tail, ∃ d, x = ScanDecoder.plugin d) ∧
    (∀ (s : cIdentity) (d : α), ScanDecoder.identity s ≠ ScanDecoder.plugin d) ∧
    (insts = [] → ds = [ScanDecoder.identity (mkIdentity data none)]) := by
  unfold buildDecoders at h
  cases hi : instantiateDecoders insts with
  | error e =>
    cases e
    rw [hi] at h
    exact absurd h (fun hbad => Except.noConfusion hbad)
  | ok l =>
    rw [hi] at h
    injection h with h'
    subst h'
    refine ⟨rfl, ?_, ?_, ?_⟩
    · intro x hx
      simp only [List.tail_cons] at hx
      obtain ⟨d, _, hd⟩ := List.mem_map.mp hx
      exact ⟨d, hd.symm⟩
    · intro s d hbad
      exact ScanDecoder.noConfusion hbad
    · intro hnil
      subst hnil
      have : l = [] := by
        have h0 : instantiateDecoders ([] : List (Option α)) = Except.ok ([] : List α) := rfl
        rw [h0] at hi
        injection hi with h2
        exact h2.symm
      rw [this]
      rfl

/-- Witness for C9: one successfully instantiated plugin (`5`) gives
the decoder list identity-first, and zero plugins give the identity
alone. -/
theorem claim_C9_witness :
    (([ScanDecoder.identity (mkIdentity [1] none), ScanDecoder.plugin 5] :
        List (ScanDecoder Nat)).head? =
      some (ScanDecoder.identity (mkIdentity [1] none))) ∧
    (([ScanDecoder.identity (mkIdentity [2] none)] : List (ScanDecoder Nat)) =
      [ScanDecoder.identity (mkIdentity [2] none)]) :=
  ⟨(claim_C9 [1] [some 5]
      [ScanDecoder.identity (mkIdentity [1] none), ScanDecoder.plugin 5] rfl).1,
   (claim_C9 [2] ([] : List (Option Nat))
      [ScanDecoder.identity (mkIdentity [2] none)] rfl).2.2.2 rfl⟩

/-- C2: the claim says a plugin load failure is non-fatal in the actual
run.  `EMLDump` calls `LoadDecoders(options.decoders, True)` with
verbose hardcoded to `True`, so the first failure re-raises and aborts
the load: with a failing plugin followed by a loadable one, nothing is
registered and the exception propagates (first conjunct), whereas the
non-verbose path the claim describes would indeed continue (second
conjunct). -/
theorem claim_C2 :
    LoadDecoders [none, some 0] true = (([] : List Nat), true) ∧
    LoadDecoders [none, some 0] false = ([0], false) := ⟨rfl, rfl⟩

/-- C3: the claim says `['A']:['B']` parses as the cut of left needle
`A` and right needle `B`.  The greedy quoted-needle regular expression
instead captures across the colon — the whole text matches as a single
term whose needle is the byte string of the characters between the
outermost quotes, with an empty remainder — so the missing colon makes
`ParseCutArgument` return the Invalid marker. -/
theorem claim_C3 :
    ParseCutArgument
      ['[', quoteChar, 'A', quoteChar, ']', ':', '[', quoteChar, 'B', quoteChar, ']'] =
      Except.ok none ∧
    ParseCutTerm
      ['[', quoteChar, 'A', quoteChar, ']', ':', '[', quoteChar, 'B', quoteChar, ']'] =
      Except.ok (some (CutTerm.find
        (['A', quoteChar, ']', ':', '[', quoteChar, 'B'].map Char.toNat)), []) :=
  ⟨rfl, rfl⟩
